import Mathlib

/-!
Verification development for the `PuppeteerPool` browser-pool subsystem
(`src/puppeteer_pool.js` of the repository).  The pool keeps two maps of
instance records (`activeInstances`, `retiredInstances`) keyed by a
monotonically increasing integer id, an optional FIFO of recycled disk-cache
directories, and exposes `newPage`, `retire(browser)` and `destroy`.

The embedding below translates the state-manipulating parts of the source
into pure functions on an explicit `PoolState`.  JavaScript objects keyed by
integer ids are modelled as lists of records (integer keys iterate in
ascending order, and ids are assigned in ascending order, so list append
matches the iteration order of the source maps).  Asynchronous callbacks
(`disconnected`, `targetdestroyed`, launch resolution/failure, the delayed
kill paths of the reaper and of `targetdestroyed`) are modelled as separate
operations that can be interleaved arbitrarily, which is how the
single-threaded event loop delivers them.  Timers and wall-clock decisions
are external inputs to those operations.
-/

/-- The `target.type()` values distinguished by the `targetdestroyed`
handler in `_launchInstance` (source lines 234-251). -/
inductive TargetType where
  | page
  | other
  | serviceworker
  | background_page
  deriving Repr, DecidableEq

/-- One element of `options.args` as assembled by `launchPuppeteerFunction`
(source lines 182-199): either the pushed `--disk-cache-dir=<path>` directive
or any caller-supplied argument.  Directory paths are abstracted as `Nat`. -/
inductive LaunchArg where
  | diskCacheDir (d : Nat)
  | plain (n : Nat)
  deriving Repr, DecidableEq

/-- The fields of `launchPuppeteerOptions` consulted by the constructor's
headless check (source lines 170-175): `headless` may be `undefined`
(modelled `none`), `false` or `true`; `devtools` is used for truthiness only.
`args` is the caller-supplied argument list. -/
structure LaunchOptions where
  headless : Option Bool
  devtools : Bool
  args : List LaunchArg
  deriving Repr, DecidableEq

/-- Internal representation of a Puppeteer instance, `PuppeteerInstance`
(source lines 55-66).  `browserId` stands for the identity of the browser
object that `browserPromise` eventually resolves to (each `_launchInstance`
call creates a fresh promise, hence a fresh identity).  `browserDir` models
the `browser.recycleDiskCacheDir` property set inside
`launchPuppeteerFunction` (line 197); it is copied onto the field
`recycleDiskCacheDir` of the record only when the launch resolves (line 254).
`childProcess` is not modelled (it is only killed, never read). -/
structure PuppeteerInstance where
  id : Nat
  browserId : Nat
  activePages : Int
  totalPages : Nat
  lastPageOpenedAt : Nat
  killed : Bool
  recycleDiskCacheDir : Option Nat
  browserDir : Option Nat
  deriving Repr, DecidableEq

/-- The configuration consulted by the modelled operations (source lines
150-181).  Timing options (`instanceKillerIntervalMillis`,
`killInstanceAfterMillis`) only schedule the kill operations, which the
model exposes as explicit steps, so they are not carried. -/
structure PoolConfig where
  maxOpenPagesPerInstance : Int
  retireInstanceAfterRequestCount : Nat
  recycleDiskCache : Bool
  deriving Repr, DecidableEq

/-- The mutable state of a `PuppeteerPool` (source lines 177-205):
configuration fields stored on `this`, the `browserCounter`, the two
instance maps and the optional `recycledDiskCacheDirs` FIFO (`some` iff
`recycleDiskCache` was set, line 181).  The source keeps no destroyed flag:
`destroy` (lines 428-466) clears the timer and closes browsers but leaves
the maps in place, which this model reflects. -/
structure PoolState where
  maxOpenPagesPerInstance : Int
  retireInstanceAfterRequestCount : Nat
  browserCounter : Nat
  activeInstances : List PuppeteerInstance
  retiredInstances : List PuppeteerInstance
  recycledDiskCacheDirs : Option (List Nat)
  deriving Repr, DecidableEq

/-- The pool state right after the constructor ran (source lines 177-205). -/
def poolInit (cfg : PoolConfig) : PoolState :=
  { maxOpenPagesPerInstance := cfg.maxOpenPagesPerInstance
    retireInstanceAfterRequestCount := cfg.retireInstanceAfterRequestCount
    browserCounter := 0
    activeInstances := []
    retiredInstances := []
    recycledDiskCacheDirs := if cfg.recycleDiskCache then some [] else none }

/-- Ids of the records of a map. -/
def idsOf (l : List PuppeteerInstance) : List Nat := l.map (·.id)

/-- All records currently held by the pool, across both maps. -/
def allInstances (s : PoolState) : List PuppeteerInstance :=
  s.activeInstances ++ s.retiredInstances

/-- `delete map[id]` on an id-keyed object, modelled on the record list. -/
def removeById (id : Nat) (l : List PuppeteerInstance) : List PuppeteerInstance :=
  l.filter fun r => r.id ≠ id

/-- In-place mutation of the record with the given id (JavaScript mutates
the single object stored in the map). -/
def updateById (id : Nat) (f : PuppeteerInstance → PuppeteerInstance)
    (l : List PuppeteerInstance) : List PuppeteerInstance :=
  l.map fun r => if r.id = id then f r else r

/-- The instance-selection scan of `newPage` (source lines 387-391):
`_.mapObject` visits `activeInstances` in ascending id order and the last
instance with `activePages < maxOpenPagesPerInstance` wins; `none` means
every active instance is saturated. -/
def chooseInstance (l : List PuppeteerInstance) (maxOpen : Int) :
    Option PuppeteerInstance :=
  l.foldl (fun acc inst => if maxOpen ≤ inst.activePages then acc else some inst) none

/-- The record built by `_launchInstance` (source lines 217-222 and the
constructor of `PuppeteerInstance`, lines 56-65), together with the disk
cache directory chosen synchronously inside `launchPuppeteerFunction`
(lines 188-194): the FIFO head when available, else a fresh temp directory
(the external `mkdtemp` result is the `freshDir` input).  The directory is
attached to the browser (`browserDir`); the field `recycleDiskCacheDir`
of the record itself starts `null`. -/
def freshInstance (now freshDir : Nat) (s : PoolState) : PuppeteerInstance :=
  { id := s.browserCounter
    browserId := s.browserCounter
    activePages := 0
    totalPages := 0
    lastPageOpenedAt := now
    killed := false
    recycleDiskCacheDir := none
    browserDir :=
      match s.recycledDiskCacheDirs with
      | none => none
      | some [] => some freshDir
      | some (d :: _) => some d }

/-- State effect of `_launchInstance` (source lines 217-265): allocate the
next id, insert the record into `activeInstances` before the launch is
awaited, and consume the FIFO head if recycling is enabled and the FIFO is
non-empty (`removeFirst`, line 191). -/
def launchInstance (now freshDir : Nat) (s : PoolState) : PoolState :=
  { s with
    browserCounter := s.browserCounter + 1
    activeInstances := s.activeInstances ++ [freshInstance now freshDir s]
    recycledDiskCacheDirs := s.recycledDiskCacheDirs.map List.tail }

/-- `_retireInstance` (source lines 272-281): if the id is not in
`activeInstances` the call only logs; otherwise the record moves to
`retiredInstances` and is deleted from `activeInstances`. -/
def retireById (id : Nat) (s : PoolState) : PoolState :=
  match s.activeInstances.find? (fun r => r.id = id) with
  | none => s
  | some rec =>
      { s with
        activeInstances := removeById id s.activeInstances
        retiredInstances := s.retiredInstances ++ [rec] }

/-- `_killInstance` (source lines 322-359): delete the record from
`retiredInstances`; the `recycleDiskCache` closure then appends the
`recycleDiskCacheDir` of the record (when set) to the FIFO and clears the field.
The two racing recycle paths (close completion and the 5s hard-kill timer)
are idempotent, so the model performs the recycle once. -/
def killById (id : Nat) (s : PoolState) : PoolState :=
  match s.retiredInstances.find? (fun r => r.id = id) with
  | none => { s with retiredInstances := removeById id s.retiredInstances }
  | some rec =>
      { s with
        retiredInstances := removeById id s.retiredInstances
        recycledDiskCacheDirs :=
          match rec.recycleDiskCacheDir with
          | none => s.recycledDiskCacheDirs
          | some d => s.recycledDiskCacheDirs.map (· ++ [d]) }

/-- The instance that `newPage` (source lines 384-393) operates on: the
choice of the scan, or the freshly launched record when every active
instance is saturated. -/
def newPageTarget (now freshDir : Nat) (s : PoolState) : PuppeteerInstance :=
  match chooseInstance s.activeInstances s.maxOpenPagesPerInstance with
  | some i => i
  | none => freshInstance now freshDir s

/-- The target instance of `newPage` after the counter updates of source
lines 395-397 mutated it: `lastPageOpenedAt = Date.now()`, `totalPages++`,
`activePages++`. -/
def newPageUpd (now freshDir : Nat) (s : PoolState) : PuppeteerInstance :=
  { newPageTarget now freshDir s with
    lastPageOpenedAt := now
    totalPages := (newPageTarget now freshDir s).totalPages + 1
    activePages := (newPageTarget now freshDir s).activePages + 1 }

/-- Pool state after `if (!instance) instance = this._launchInstance()`
(source line 393). -/
def newPageS1 (now freshDir : Nat) (s : PoolState) : PoolState :=
  match chooseInstance s.activeInstances s.maxOpenPagesPerInstance with
  | some _ => s
  | none => launchInstance now freshDir s

/-- Pool state after the counter updates (source lines 395-397) mutated
the object stored in `activeInstances`. -/
def newPageS2 (now freshDir : Nat) (s : PoolState) : PoolState :=
  { newPageS1 now freshDir s with
    activeInstances :=
      updateById (newPageTarget now freshDir s).id (fun _ => newPageUpd now freshDir s)
        (newPageS1 now freshDir s).activeInstances }

/-- Pool state after the lifetime-cap check of source line 399: when the
post-increment `totalPages` reaches `retireInstanceAfterRequestCount`, the
instance is retired within the same synchronous step. -/
def newPageS3 (now freshDir : Nat) (s : PoolState) : PoolState :=
  if s.retireInstanceAfterRequestCount ≤ (newPageUpd now freshDir s).totalPages then
    retireById (newPageTarget now freshDir s).id (newPageS2 now freshDir s)
  else newPageS2 now freshDir s

/-- `newPage` (source lines 384-422).  The synchronous part selects or
launches an instance, updates the counters and possibly retires the
instance - all before the browser or page creation is awaited.  The
`pageCreationFails` input models the try/catch around the awaited
`browser.newPage()` (lines 401-421): on failure the instance is retired
again (line 417) and the error is rethrown (line 420); on success the page
(identified here by its instance id) is returned. -/
def newPage (now freshDir : Nat) (pageCreationFails : Bool) (s : PoolState) :
    PoolState × Except Unit Nat :=
  if pageCreationFails then
    (retireById (newPageTarget now freshDir s).id (newPageS3 now freshDir s), .error ())
  else (newPageS3 now freshDir s, .ok (newPageTarget now freshDir s).id)

/-- `_findInstanceByBrowser` (source lines 474-487): filter
`activeInstances` by identity of the resolved browser; zero matches yield
`null`, one match yields the record, several matches throw. -/
def findInstanceByBrowser (bid : Nat) (s : PoolState) :
    Except Unit (Option PuppeteerInstance) :=
  match s.activeInstances.filter (fun r => r.browserId = bid) with
  | [] => .ok none
  | [i] => .ok (some i)
  | _ => .error ()

/-- `retire(browser)` (source lines 497-503): retire the located instance,
or complete silently when none is found. -/
def retireBrowser (bid : Nat) (s : PoolState) : PoolState × Except Unit Unit :=
  match findInstanceByBrowser bid s with
  | .error _ => (s, .error ())
  | .ok none => (s, .ok ())
  | .ok (some i) => (retireById i.id s, .ok ())

/-- The `targetdestroyed` handler (source lines 234-251): target types
other than `page` and `other` are ignored; otherwise `activePages` is
decremented unconditionally on the closed-over record, wherever it lives.
The kill it may schedule is the separate `killRetired` operation. -/
def targetDestroyedStep (id : Nat) (ty : TargetType) (s : PoolState) : PoolState :=
  if ty = .page ∨ ty = .other then
    { s with
      activeInstances := updateById id (fun r => { r with activePages := r.activePages - 1 }) s.activeInstances
      retiredInstances := updateById id (fun r => { r with activePages := r.activePages - 1 }) s.retiredInstances }
  else s

/-- Resolution of `browserPromise` (source lines 226-255): the handler
copies `browser.recycleDiskCacheDir` onto the record (line 254). -/
def launchResolvedStep (id : Nat) (s : PoolState) : PoolState :=
  { s with
    activeInstances := updateById id (fun r => { r with recycleDiskCacheDir := r.browserDir }) s.activeInstances
    retiredInstances := updateById id (fun r => { r with recycleDiskCacheDir := r.browserDir }) s.retiredInstances }

/-- State effect of `destroy` (source lines 428-466): every record across
both maps gets `killed := true` (line 439); the FIFO, when present, is
drained by the `removeFirst` loop (lines 460-462).  The maps themselves are
left untouched and no destroyed flag is set. -/
def destroyStep (s : PoolState) : PoolState :=
  { s with
    activeInstances := s.activeInstances.map (fun r => { r with killed := true })
    retiredInstances := s.retiredInstances.map (fun r => { r with killed := true })
    recycledDiskCacheDirs := s.recycledDiskCacheDirs.map (fun _ => []) }

/-- One observable operation or event delivery on the pool: a `newPage`
call (with its failure continuation), a manual `retire(browser)`, the
`disconnected` handler (source lines 227-231, which retires regardless of
`killed`), a `targetdestroyed` delivery, resolution or failure of a pending
launch (lines 226-260), a `_killInstance` execution (reaper branches,
lines 290-315, or the delayed kill scheduled by `targetdestroyed`), and
`destroy`. -/
inductive Op where
  | newPage (now freshDir : Nat) (pageCreationFails : Bool)
  | retireBrowser (bid : Nat)
  | disconnected (id : Nat)
  | targetDestroyed (id : Nat) (ty : TargetType)
  | launchResolved (id : Nat)
  | launchFailed (id : Nat)
  | killRetired (id : Nat)
  | destroy
  deriving Repr

/-- Interpretation of one operation on the pool state. -/
def poolStep (s : PoolState) : Op → PoolState
  | .newPage now freshDir fails => (newPage now freshDir fails s).1
  | .retireBrowser bid => (retireBrowser bid s).1
  | .disconnected id => retireById id s
  | .targetDestroyed id ty => targetDestroyedStep id ty s
  | .launchResolved id => launchResolvedStep id s
  | .launchFailed id => retireById id s
  | .killRetired id => killById id s
  | .destroy => destroyStep s

/-- States reachable from a freshly constructed pool by any sequence of
operations and event deliveries. -/
inductive Reachable (cfg : PoolConfig) : PoolState → Prop
  | init : Reachable cfg (poolInit cfg)
  | step (s : PoolState) (op : Op) : Reachable cfg s → Reachable cfg (poolStep s op)

/-- A sample configuration (the defaults of the source, lines 17-31, with
recycling off). -/
def cfg0 : PoolConfig :=
  { maxOpenPagesPerInstance := 50
    retireInstanceAfterRequestCount := 100
    recycleDiskCache := false }

/-- A sample configuration with disk-cache recycling enabled. -/
def cfg1 : PoolConfig :=
  { maxOpenPagesPerInstance := 50
    retireInstanceAfterRequestCount := 100
    recycleDiskCache := true }

/-- The constructor's headless check (source lines 170-175): the warning
fires when `recycleDiskCache` is set and either no `launchPuppeteerOptions`
were given, or `headless` is truthy, or `headless` is `undefined` and
`devtools` is falsy. -/
def warnsRecycleHeadless (recycleDiskCache : Bool) (opts : Option LaunchOptions) : Bool :=
  recycleDiskCache &&
    match opts with
    | none => true
    | some o => o.headless = some true || (o.headless = none && !o.devtools)

/-- `this.launchPuppeteerFunction` (source lines 182-199), returning the
argument list handed to the launcher, the disk-cache directory attached to
the browser, and the FIFO after the call.  The branch is keyed on
`recycleDiskCache` alone: when it is set, the FIFO head is dequeued (or a
fresh temp directory `freshDir` is created) and `--disk-cache-dir=<dir>` is
pushed, whatever the headless check concluded. -/
def launchPuppeteerFnModel (recycleDiskCache : Bool) (opts : Option LaunchOptions)
    (fifo : List Nat) (freshDir : Nat) : List LaunchArg × Option Nat × List Nat :=
  let baseArgs := (opts.map (·.args)).getD []
  if recycleDiskCache then
    match fifo with
    | d :: rest => (baseArgs ++ [.diskCacheDir d], some d, rest)
    | [] => (baseArgs ++ [.diskCacheDir freshDir], some freshDir, [])
  else (baseArgs, none, fifo)

/-!
Timed model of the promise chains built by `destroy` (source lines
434-466).  Each instance contributes one chain:

  `browserPromise.then(browser => { browser.close(); return browser; })
                 .then(browser => browser.recycleDiskCacheDir
                                    ? deleteDiskCacheDir(...) : undefined)`

The first callback runs when `browserPromise` settles; it calls
`browser.close()` but returns `browser` itself, so the chain continues
without waiting for the close promise - the close settles on its own at
`browserResolveAt + closeDuration`.  The second callback, which deletes the
cache directory of the instance, therefore starts right when the browser
promise has resolved.  `Promise.all` over the chains gates the loop which drains
`recycledDiskCacheDirs` (lines 457-463).  All durations are external inputs.
-/

/-- Timing data for the close chain of one instance in `destroy`. -/
structure DestroyTiming where
  browserResolveAt : Nat
  closeDuration : Nat
  deleteDuration : Nat
  dir : Option Nat
  deriving Repr, DecidableEq

/-- When `browser.close()` is called (first `.then` callback, line 447). -/
def closeInitiatedAt (t : DestroyTiming) : Nat := t.browserResolveAt

/-- When that close operation settles; `destroy` never observes this
instant because the close promise is discarded. -/
def closeSettledAt (t : DestroyTiming) : Nat :=
  t.browserResolveAt + t.closeDuration

/-- When `deleteDiskCacheDir(browser.recycleDiskCacheDir)` starts (second
`.then` callback, line 451), if the instance has a cache directory: right
after the first callback returned the browser, with no wait on the close. -/
def dirDeleteStartAt (t : DestroyTiming) : Option Nat :=
  t.dir.map fun _ => t.browserResolveAt

/-- When the whole chain of the instance is settled, gating `Promise.all`. -/
def chainDoneAt (t : DestroyTiming) : Nat :=
  match t.dir with
  | some _ => t.browserResolveAt + t.deleteDuration
  | none => t.browserResolveAt

/-- When the drain loop over `recycledDiskCacheDirs` (lines 457-463) runs:
after `Promise.all(closePromises)` resolves. -/
def drainStartAt (ts : List DestroyTiming) : Nat :=
  (ts.map chainDoneAt).foldl max 0

/-!
Outcome model of `destroy` (source lines 428-466), with every fallible
external step carried as a boolean input.  The promise of `browser.close()`
is discarded by the chain, so its outcome (`closeFails`) cannot influence
the result; `deleteDiskCacheDir` (lines 42-48) catches and logs its own
errors; the final `.catch` (line 465) converts any remaining rejection into
a fulfilled completion.
-/

/-- Failure switches for the chain of one instance in `destroy`. -/
structure DestroyChainInput where
  browserLaunchFails : Bool
  closeFails : Bool
  recycleDiskCacheDir : Option Nat
  dirDeleteFails : Bool
  deriving Repr, DecidableEq

/-- `.catch(handler)` on a promise outcome. -/
def pcatch (p : Except Unit Unit) (h : Unit → Except Unit Unit) : Except Unit Unit :=
  match p with
  | .ok a => .ok a
  | .error e => h e

/-- `deleteDiskCacheDir` (source lines 42-48): `rimraf` may fail, but the
attached `.catch` only logs a warning. -/
def deleteDiskCacheDirR (fails : Bool) : Except Unit Unit :=
  pcatch (if fails then .error () else .ok ()) fun _ => .ok ()

/-- One element of `closePromises` (source lines 444-453).  The first
callback calls `browser.close()` and returns the browser without awaiting
the close, so `c.closeFails` is never consulted; the second callback
deletes the cache directory when one is attached. -/
def closeChainR (c : DestroyChainInput) : Except Unit Unit :=
  (if c.browserLaunchFails then Except.error () else Except.ok ()) >>= fun _ =>
    match c.recycleDiskCacheDir with
    | some _ => deleteDiskCacheDirR c.dirDeleteFails
    | none => Except.ok ()

/-- `Promise.all`: rejects iff some member rejects. -/
def promiseAll (l : List (Except Unit Unit)) : Except Unit Unit :=
  l.foldr (fun r acc => r >>= fun _ => acc) (.ok ())

/-- The outcome of the chain of `destroy` before the final `.catch` (source
lines 455-464): all close chains, then the FIFO drain deletions. -/
def destroyBody (chains : List DestroyChainInput) (fifoDeleteFails : List Bool) :
    Except Unit Unit :=
  promiseAll (chains.map closeChainR) >>= fun _ =>
    promiseAll (fifoDeleteFails.map deleteDiskCacheDirR)

/-- The completion `destroy` hands back to the caller (source lines
455-466), including the final `.catch(err => log.exception(...))`. -/
def destroyResult (chains : List DestroyChainInput) (fifoDeleteFails : List Bool) :
    Except Unit Unit :=
  pcatch (destroyBody chains fifoDeleteFails) fun _ => .ok ()

/-! ### Basic facts about the map operations -/

theorem mem_removeById {id : Nat} {l : List PuppeteerInstance} {r : PuppeteerInstance} :
    r ∈ removeById id l ↔ r ∈ l ∧ r.id ≠ id := by
  simp [removeById]

theorem mem_idsOf {l : List PuppeteerInstance} {n : Nat} :
    n ∈ idsOf l ↔ ∃ r ∈ l, r.id = n := by
  simp [idsOf]

theorem mem_idsOf_of_mem {l : List PuppeteerInstance} {r : PuppeteerInstance}
    (h : r ∈ l) : r.id ∈ idsOf l :=
  mem_idsOf.mpr ⟨r, h, rfl⟩

theorem idsOf_append (l₁ l₂ : List PuppeteerInstance) :
    idsOf (l₁ ++ l₂) = idsOf l₁ ++ idsOf l₂ := by
  simp [idsOf]

theorem idsOf_removeById_sublist (id : Nat) (l : List PuppeteerInstance) :
    (idsOf (removeById id l)).Sublist (idsOf l) :=
  (l.filter_sublist).map _

theorem idsOf_map (g : PuppeteerInstance → PuppeteerInstance)
    (hg : ∀ r, (g r).id = r.id) (l : List PuppeteerInstance) :
    idsOf (l.map g) = idsOf l := by
  induction l with
  | nil => rfl
  | cons a t ih => simp [idsOf, hg, ih]

theorem idsOf_updateById (id : Nat) (f : PuppeteerInstance → PuppeteerInstance)
    (hf : ∀ r : PuppeteerInstance, r.id = id → (f r).id = id)
    (l : List PuppeteerInstance) : idsOf (updateById id f l) = idsOf l := by
  refine idsOf_map _ (fun r => ?_) l
  by_cases h : r.id = id
  · simp [h, hf r h]
  · simp [h]

theorem mem_updateById {id : Nat} {f : PuppeteerInstance → PuppeteerInstance}
    {l : List PuppeteerInstance} {r' : PuppeteerInstance} :
    r' ∈ updateById id f l ↔ ∃ r ∈ l, (if r.id = id then f r else r) = r' := by
  simp [updateById]

/-! ### The structural invariant of the two instance maps -/

/-- Well-formedness of a pool state: every held id was allocated by
`browserCounter`, ids are unique within each map, and the two maps hold no
common id. -/
def PoolInv (s : PoolState) : Prop :=
  (∀ i ∈ allInstances s, i.id < s.browserCounter) ∧
  (idsOf s.activeInstances).Nodup ∧
  (idsOf s.retiredInstances).Nodup ∧
  ∀ a ∈ s.activeInstances, ∀ r ∈ s.retiredInstances, a.id ≠ r.id

theorem inv_of_maps {s : PoolState} (h : PoolInv s) (la lr : List PuppeteerInstance)
    (fifo : Option (List Nat))
    (hla : idsOf la = idsOf s.activeInstances) (hlr : idsOf lr = idsOf s.retiredInstances) :
    PoolInv { s with activeInstances := la, retiredInstances := lr,
                     recycledDiskCacheDirs := fifo } := by
  obtain ⟨hb, hna, hnr, hd⟩ := h
  refine ⟨?_, ?_, ?_, ?_⟩
  · intro i hi
    simp only [allInstances, List.mem_append] at hi
    rcases hi with hi | hi
    · have : i.id ∈ idsOf s.activeInstances := hla ▸ mem_idsOf_of_mem hi
      obtain ⟨j, hj, hji⟩ := mem_idsOf.mp this
      simpa [hji] using hb j (by simp [allInstances, hj])
    · have : i.id ∈ idsOf s.retiredInstances := hlr ▸ mem_idsOf_of_mem hi
      obtain ⟨j, hj, hji⟩ := mem_idsOf.mp this
      simpa [hji] using hb j (by simp [allInstances, hj])
  · simpa [hla] using hna
  · simpa [hlr] using hnr
  · intro a ha r hr
    have ha' : a.id ∈ idsOf s.activeInstances := hla ▸ mem_idsOf_of_mem ha
    have hr' : r.id ∈ idsOf s.retiredInstances := hlr ▸ mem_idsOf_of_mem hr
    obtain ⟨j, hj, hji⟩ := mem_idsOf.mp ha'
    obtain ⟨k, hk, hki⟩ := mem_idsOf.mp hr'
    rw [← hji, ← hki]
    exact hd j hj k hk

theorem inv_retireById (id : Nat) {s : PoolState} (h : PoolInv s) :
    PoolInv (retireById id s) := by
  obtain ⟨hb, hna, hnr, hd⟩ := h
  unfold retireById
  split
  · exact ⟨hb, hna, hnr, hd⟩
  · rename_i rec hfind
    have hmem : rec ∈ s.activeInstances := List.mem_of_find?_eq_some hfind
    have hid : rec.id = id := by simpa using List.find?_some hfind
    refine ⟨?_, ?_, ?_, ?_⟩
    · intro i hi
      simp only [allInstances, List.mem_append, List.mem_singleton] at hi
      rcases hi with hi | hi | hi
      · exact hb i (by simp [allInstances, (mem_removeById.mp hi).1])
      · exact hb i (by simp [allInstances, hi])
      · subst hi; exact hb i (by simp [allInstances, hmem])
    · exact hna.sublist (idsOf_removeById_sublist id s.activeInstances)
    · rw [idsOf_append]
      rw [List.nodup_append]
      refine ⟨hnr, by simp [idsOf], ?_⟩
      intro n hn hn'
      simp only [idsOf, List.map_cons, List.map_nil, List.mem_singleton] at hn'
      obtain ⟨k, hk, hki⟩ := mem_idsOf.mp hn
      exact hd rec hmem k hk (by omega)
    · intro a ha r hr
      obtain ⟨haa, hane⟩ := mem_removeById.mp ha
      simp only [List.mem_append, List.mem_singleton] at hr
      rcases hr with hr | hr
      · exact hd a haa r hr
      · subst hr; rw [hid]; exact hane

theorem inv_killById (id : Nat) {s : PoolState} (h : PoolInv s) :
    PoolInv (killById id s) := by
  obtain ⟨hb, hna, hnr, hd⟩ := h
  have core : ∀ fifo : Option (List Nat),
      PoolInv { s with retiredInstances := removeById id s.retiredInstances,
                       recycledDiskCacheDirs := fifo } := by
    intro fifo
    refine ⟨?_, hna, hnr.sublist (idsOf_removeById_sublist id s.retiredInstances), ?_⟩
    · intro i hi
      simp only [allInstances, List.mem_append] at hi
      rcases hi with hi | hi
      · exact hb i (by simp [allInstances, hi])
      · exact hb i (by simp [allInstances, (mem_removeById.mp hi).1])
    · intro a ha r hr
      exact hd a ha r (mem_removeById.mp hr).1
  unfold killById
  split
  · exact core s.recycledDiskCacheDirs
  · rename_i rec hfind
    split
    · exact core s.recycledDiskCacheDirs
    · exact core _

theorem inv_launchInstance (now freshDir : Nat) {s : PoolState} (h : PoolInv s) :
    PoolInv (launchInstance now freshDir s) := by
  obtain ⟨hb, hna, hnr, hd⟩ := h
  have hfid : (freshInstance now freshDir s).id = s.browserCounter := rfl
  refine ⟨?_, ?_, hnr, ?_⟩
  · intro i hi
    simp only [allInstances, launchInstance, List.mem_append, List.mem_singleton] at hi
    show i.id < s.browserCounter + 1
    rcases hi with (hi | hi) | hi
    · exact Nat.lt_succ_of_lt (hb i (by simp [allInstances, hi]))
    · subst hi; rw [hfid]; exact Nat.lt_succ_self _
    · exact Nat.lt_succ_of_lt (hb i (by simp [allInstances, hi]))
  · show (idsOf (s.activeInstances ++ [freshInstance now freshDir s])).Nodup
    rw [idsOf_append, List.nodup_append]
    refine ⟨hna, by simp [idsOf], ?_⟩
    intro n hn hn'
    simp only [idsOf, List.map_cons, List.map_nil, List.mem_singleton] at hn'
    obtain ⟨j, hj, hji⟩ := mem_idsOf.mp hn
    have hjb := hb j (by simp [allInstances, hj])
    rw [hn', hfid] at hji
    omega
  · intro a ha r hr
    simp only [launchInstance, List.mem_append, List.mem_singleton] at ha hr
    rcases ha with ha | ha
    · exact hd a ha r hr
    · subst ha
      have hrb := hb r (by simp [allInstances, hr])
      rw [hfid]
      omega

/-! ### The selection scan of `newPage` -/

theorem chooseInstance_aux (m : Int) (l : List PuppeteerInstance)
    (acc : Option PuppeteerInstance) :
    (l.foldl (fun acc inst => if m ≤ inst.activePages then acc else some inst) acc = none ↔
      acc = none ∧ ∀ i ∈ l, m ≤ i.activePages) ∧
    (∀ i, l.foldl (fun acc inst => if m ≤ inst.activePages then acc else some inst) acc = some i →
      (i ∈ l ∧ i.activePages < m) ∨ acc = some i) := by
  induction l generalizing acc with
  | nil => simp
  | cons a t ih =>
    by_cases hm : m ≤ a.activePages
    · constructor
      · rw [List.foldl_cons, if_pos hm, (ih acc).1]
        constructor
        · rintro ⟨h1, h2⟩
          exact ⟨h1, by intro i hi; rcases List.mem_cons.mp hi with h | h;
                        · subst h; exact hm
                        · exact h2 i h⟩
        · rintro ⟨h1, h2⟩
          exact ⟨h1, fun i hi => h2 i (List.mem_cons_of_mem a hi)⟩
      · intro i hi
        rw [List.foldl_cons, if_pos hm] at hi
        rcases (ih acc).2 i hi with h | h
        · exact Or.inl ⟨List.mem_cons_of_mem a h.1, h.2⟩
        · exact Or.inr h
    · constructor
      · rw [List.foldl_cons, if_neg hm, (ih (some a)).1]
        constructor
        · rintro ⟨h1, -⟩; cases h1
        · rintro ⟨-, h2⟩
          exact absurd (h2 a (List.mem_cons_self a t)) hm
      · intro i hi
        rw [List.foldl_cons, if_neg hm] at hi
        rcases (ih (some a)).2 i hi with h | h
        · exact Or.inl ⟨List.mem_cons_of_mem a h.1, h.2⟩
        · refine Or.inl ⟨?_, ?_⟩
          · cases h; exact List.mem_cons_self a t
          · cases h; exact lt_of_not_le hm

theorem chooseInstance_eq_none_iff {l : List PuppeteerInstance} {m : Int} :
    chooseInstance l m = none ↔ ∀ i ∈ l, m ≤ i.activePages := by
  have h := (chooseInstance_aux m l none).1
  simpa [chooseInstance] using h

theorem chooseInstance_mem {l : List PuppeteerInstance} {m : Int}
    {i : PuppeteerInstance} (h : chooseInstance l m = some i) :
    i ∈ l ∧ i.activePages < m := by
  rcases (chooseInstance_aux m l none).2 i h with h' | h'
  · exact h'
  · cases h'

/-! ### Invariant preservation along every operation -/

theorem inv_newPageS1 (now freshDir : Nat) {s : PoolState} (h : PoolInv s) :
    PoolInv (newPageS1 now freshDir s) := by
  unfold newPageS1
  split
  · exact h
  · exact inv_launchInstance now freshDir h

theorem inv_newPageS2 (now freshDir : Nat) {s : PoolState} (h : PoolInv s) :
    PoolInv (newPageS2 now freshDir s) := by
  have h1 := inv_newPageS1 now freshDir h
  exact inv_of_maps h1
    (updateById (newPageTarget now freshDir s).id (fun _ => newPageUpd now freshDir s)
      (newPageS1 now freshDir s).activeInstances)
    ((newPageS1 now freshDir s).retiredInstances)
    ((newPageS1 now freshDir s).recycledDiskCacheDirs)
    (idsOf_updateById _ _ (fun r hr => by simp [newPageUpd, hr]) _) rfl

theorem inv_newPageS3 (now freshDir : Nat) {s : PoolState} (h : PoolInv s) :
    PoolInv (newPageS3 now freshDir s) := by
  unfold newPageS3
  split
  · exact inv_retireById _ (inv_newPageS2 now freshDir h)
  · exact inv_newPageS2 now freshDir h

theorem inv_poolStep {s : PoolState} (op : Op) (h : PoolInv s) :
    PoolInv (poolStep s op) := by
  cases op with
  | newPage now freshDir fails =>
    show PoolInv (newPage now freshDir fails s).1
    unfold newPage
    split
    · exact inv_retireById _ (inv_newPageS3 now freshDir h)
    · exact inv_newPageS3 now freshDir h
  | retireBrowser bid =>
    show PoolInv (retireBrowser bid s).1
    unfold retireBrowser
    split <;> first
      | exact h
      | · rename_i i _
          exact inv_retireById i.id h
  | disconnected id => exact inv_retireById id h
  | targetDestroyed id ty =>
    show PoolInv (targetDestroyedStep id ty s)
    unfold targetDestroyedStep
    split
    · refine inv_of_maps h _ _ _ (idsOf_updateById _ _ ?_ _) (idsOf_updateById _ _ ?_ _) <;>
        exact fun r h => h
    · exact h
  | launchResolved id =>
    refine inv_of_maps h _ _ _ (idsOf_updateById _ _ ?_ _) (idsOf_updateById _ _ ?_ _) <;>
      exact fun r h => h
  | launchFailed id => exact inv_retireById id h
  | killRetired id => exact inv_killById id h
  | destroy =>
    refine inv_of_maps h _ _ _ (idsOf_map _ ?_ _) (idsOf_map _ ?_ _) <;> exact fun r => rfl

theorem inv_poolInit (cfg : PoolConfig) : PoolInv (poolInit cfg) := by
  refine ⟨?_, ?_, ?_, ?_⟩ <;> simp [poolInit, allInstances, idsOf, PoolInv]

theorem inv_reachable {cfg : PoolConfig} {s : PoolState} (h : Reachable cfg s) :
    PoolInv s := by
  induction h with
  | init => exact inv_poolInit cfg
  | step s op _ ih => exact inv_poolStep op ih

/-! ### Field-preservation facts -/

theorem retireById_cap (id : Nat) (t : PoolState) :
    (retireById id t).retireInstanceAfterRequestCount = t.retireInstanceAfterRequestCount := by
  unfold retireById; split <;> rfl

theorem retireById_counter (id : Nat) (t : PoolState) :
    (retireById id t).browserCounter = t.browserCounter := by
  unfold retireById; split <;> rfl

theorem retireById_retired_of_empty (id : Nat) (t : PoolState)
    (h : t.activeInstances = []) : retireById id t = t := by
  unfold retireById; rw [h]; rfl

theorem killById_active (id : Nat) (t : PoolState) :
    (killById id t).activeInstances = t.activeInstances := by
  unfold killById; split <;> rfl

theorem killById_cap (id : Nat) (t : PoolState) :
    (killById id t).retireInstanceAfterRequestCount = t.retireInstanceAfterRequestCount := by
  unfold killById; split <;> rfl

theorem killById_counter (id : Nat) (t : PoolState) :
    (killById id t).browserCounter = t.browserCounter := by
  unfold killById; split <;> rfl

theorem newPageS1_cap (now fd : Nat) (s : PoolState) :
    (newPageS1 now fd s).retireInstanceAfterRequestCount = s.retireInstanceAfterRequestCount := by
  unfold newPageS1; split <;> rfl

theorem newPageS1_retired (now fd : Nat) (s : PoolState) :
    (newPageS1 now fd s).retiredInstances = s.retiredInstances := by
  unfold newPageS1; split <;> rfl

theorem newPageTarget_of_none {now fd : Nat} {s : PoolState}
    (h : chooseInstance s.activeInstances s.maxOpenPagesPerInstance = none) :
    newPageTarget now fd s = freshInstance now fd s := by
  unfold newPageTarget; rw [h]

theorem newPageTarget_of_some {now fd : Nat} {s : PoolState} {c : PuppeteerInstance}
    (h : chooseInstance s.activeInstances s.maxOpenPagesPerInstance = some c) :
    newPageTarget now fd s = c := by
  unfold newPageTarget; rw [h]

theorem newPageUpd_id (now fd : Nat) (s : PoolState) :
    (newPageUpd now fd s).id = (newPageTarget now fd s).id := rfl

/-- Decomposition of membership in the active map of `newPageS2`: a record is
either the updated target or an untouched record of the original active
map whose id differs from the id of the target. -/
theorem newPageS2_active_mem {now fd : Nat} {s : PoolState} {i : PuppeteerInstance}
    (hi : i ∈ (newPageS2 now fd s).activeInstances) :
    i = newPageUpd now fd s ∨
      (i ∈ s.activeInstances ∧ i.id ≠ (newPageTarget now fd s).id) := by
  have hi' : i ∈ updateById (newPageTarget now fd s).id (fun _ => newPageUpd now fd s)
      (newPageS1 now fd s).activeInstances := hi
  obtain ⟨j, hj, hji⟩ := mem_updateById.mp hi'
  by_cases hjid : j.id = (newPageTarget now fd s).id
  · rw [if_pos hjid] at hji
    exact Or.inl hji.symm
  · rw [if_neg hjid] at hji
    subst hji
    refine Or.inr ⟨?_, hjid⟩
    revert hj
    unfold newPageS1
    split
    · exact fun hj => hj
    · rename_i hnone
      intro hj
      rcases List.mem_append.mp hj with hj | hj
      · exact hj
      · rw [List.mem_singleton] at hj
        subst hj
        exact absurd (congrArg PuppeteerInstance.id (newPageTarget_of_none hnone).symm) hjid

/-! ### Claim C4 invariant: active instances are below the lifetime cap -/

/-- Every record of the active map has `totalPages` strictly below
`retireInstanceAfterRequestCount`. -/
def CapInv (s : PoolState) : Prop :=
  ∀ i ∈ s.activeInstances, i.totalPages < s.retireInstanceAfterRequestCount

theorem capInv_retireById (id : Nat) {t : PoolState} (h : CapInv t) :
    CapInv (retireById id t) := by
  unfold retireById; split
  · exact h
  · intro i hi
    exact h i (mem_removeById.mp hi).1

theorem capInv_newPageS3 (now fd : Nat) {s : PoolState} (h : CapInv s) :
    CapInv (newPageS3 now fd s) := by
  have hcapS2 : (newPageS2 now fd s).retireInstanceAfterRequestCount
      = s.retireInstanceAfterRequestCount := newPageS1_cap now fd s
  unfold newPageS3
  split
  · rename_i hcap
    unfold retireById
    split
    · rename_i hfind
      intro i hi
      have hne : ¬(i.id = (newPageTarget now fd s).id) := by
        have := List.find?_eq_none.mp hfind i hi
        simpa using this
      rcases newPageS2_active_mem hi with hupd | ⟨hmem, -⟩
      · exact absurd (by rw [hupd]; rfl) hne
      · rw [show (newPageS2 now fd s).retireInstanceAfterRequestCount
            = s.retireInstanceAfterRequestCount from hcapS2]
        exact h i hmem
    · intro i hi
      obtain ⟨hi2, -⟩ := mem_removeById.mp hi
      rcases newPageS2_active_mem hi2 with hupd | ⟨hmem, -⟩
      · rename_i rec hfind
        obtain ⟨-, hne⟩ := mem_removeById.mp hi
        exact absurd (by rw [hupd]; rfl) hne
      · rw [show (newPageS2 now fd s).retireInstanceAfterRequestCount
            = s.retireInstanceAfterRequestCount from hcapS2]
        exact h i hmem
  · rename_i hcap
    intro i hi
    rcases newPageS2_active_mem hi with hupd | ⟨hmem, -⟩
    · rw [hcapS2, hupd]
      exact lt_of_not_le hcap
    · rw [hcapS2]
      exact h i hmem

theorem capInv_poolStep {s : PoolState} (op : Op) (h : CapInv s) :
    CapInv (poolStep s op) := by
  have hmap : ∀ (g : PuppeteerInstance → PuppeteerInstance),
      (∀ r, (g r).totalPages = r.totalPages) →
      ∀ i ∈ s.activeInstances.map g, i.totalPages < s.retireInstanceAfterRequestCount := by
    intro g hg i hi
    obtain ⟨j, hj, hji⟩ := List.mem_map.mp hi
    rw [← hji, hg]
    exact h j hj
  cases op with
  | newPage now fd fails =>
    show CapInv (newPage now fd fails s).1
    unfold newPage
    split
    · exact capInv_retireById _ (capInv_newPageS3 now fd h)
    · exact capInv_newPageS3 now fd h
  | retireBrowser bid =>
    show CapInv (retireBrowser bid s).1
    unfold retireBrowser
    split <;> first
      | exact h
      | · rename_i i _
          exact capInv_retireById i.id h
  | disconnected id => exact capInv_retireById id h
  | targetDestroyed id ty =>
    show CapInv (targetDestroyedStep id ty s)
    unfold targetDestroyedStep
    split
    · intro i hi
      refine hmap _ (fun r => ?_) i hi
      by_cases hr : r.id = id <;> simp [updateById, hr]
    · exact h
  | launchResolved id =>
    intro i hi
    refine hmap _ (fun r => ?_) i hi
    by_cases hr : r.id = id <;> simp [updateById, hr]
  | launchFailed id => exact capInv_retireById id h
  | killRetired id =>
    show CapInv (killById id s)
    intro i hi
    rw [killById_active] at hi
    rw [killById_cap]
    exact h i hi
  | destroy =>
    show CapInv (destroyStep s)
    intro i hi
    exact hmap (fun r => { r with killed := true }) (fun r => rfl) i hi

theorem capInv_reachable {cfg : PoolConfig} {s : PoolState} (h : Reachable cfg s) :
    CapInv s := by
  induction h with
  | init => intro i hi; simp [poolInit] at hi
  | step s op _ ih => exact capInv_poolStep op ih

/-! ### Claim C6 machinery: tracing records back across a step -/

theorem all_retireById_subset (id : Nat) (t : PoolState) :
    ∀ r' ∈ allInstances (retireById id t), r' ∈ allInstances t := by
  unfold retireById; split
  · exact fun r' h => h
  · rename_i rec hfind
    intro r' h
    simp only [allInstances, List.mem_append, List.mem_singleton] at h ⊢
    rcases h with h | h | h
    · exact Or.inl (mem_removeById.mp h).1
    · exact Or.inr h
    · subst h; exact Or.inl (List.mem_of_find?_eq_some hfind)

theorem all_killById_subset (id : Nat) (t : PoolState) :
    ∀ r' ∈ allInstances (killById id t), r' ∈ allInstances t := by
  unfold killById
  split <;>
  · intro r' h
    simp only [allInstances, List.mem_append] at h ⊢
    rcases h with h | h
    · exact Or.inl h
    · exact Or.inr (mem_removeById.mp h).1

theorem mono_map {l : List PuppeteerInstance} (g : PuppeteerInstance → PuppeteerInstance)
    (hg : ∀ r, (g r).id = r.id ∧ r.totalPages ≤ (g r).totalPages) :
    ∀ r' ∈ l.map g, ∃ r ∈ l, r.id = r'.id ∧ r.totalPages ≤ r'.totalPages := by
  intro r' h
  obtain ⟨j, hj, hji⟩ := List.mem_map.mp h
  subst hji
  exact ⟨j, hj, (hg j).1.symm, (hg j).2⟩

/-- Across any single operation, every record held afterwards either
descends from a record held before (same id, `totalPages` not decreased)
or is the record freshly allocated by `_launchInstance` (its id is at
least the previous `browserCounter`). -/
theorem mono_source {s : PoolState} (op : Op) :
    ∀ r' ∈ allInstances (poolStep s op),
      (∃ r ∈ allInstances s, r.id = r'.id ∧ r.totalPages ≤ r'.totalPages) ∨
      s.browserCounter ≤ r'.id := by
  have refl_case : ∀ r' ∈ allInstances s,
      (∃ r ∈ allInstances s, r.id = r'.id ∧ r.totalPages ≤ r'.totalPages) ∨
      s.browserCounter ≤ r'.id :=
    fun r' h => Or.inl ⟨r', h, rfl, le_refl _⟩
  cases op with
  | newPage now fd fails =>
    intro r' h
    have h3 : r' ∈ allInstances (newPageS3 now fd s) := by
      revert h
      show r' ∈ allInstances (newPage now fd fails s).1 → _
      unfold newPage
      split
      · exact fun h => all_retireById_subset _ _ r' h
      · exact fun h => h
    have h2 : r' ∈ allInstances (newPageS2 now fd s) := by
      revert h3
      unfold newPageS3
      split
      · exact fun h => all_retireById_subset _ _ r' h
      · exact fun h => h
    rcases List.mem_append.mp h2 with hA | hR
    · rcases newPageS2_active_mem hA with hupd | ⟨hmem, -⟩
      · cases hch : chooseInstance s.activeInstances s.maxOpenPagesPerInstance with
        | none =>
          refine Or.inr ?_
          rw [hupd]
          have : (newPageUpd now fd s).id = s.browserCounter := by
            rw [newPageUpd_id, newPageTarget_of_none hch]
            rfl
          omega
        | some c =>
          obtain ⟨hcmem, -⟩ := chooseInstance_mem hch
          refine Or.inl ⟨c, by simp [allInstances, hcmem], ?_, ?_⟩
          · rw [hupd, newPageUpd_id, newPageTarget_of_some hch]
          · rw [hupd]
            show c.totalPages ≤ (newPageTarget now fd s).totalPages + 1
            rw [newPageTarget_of_some hch]
            exact Nat.le_succ _
      · exact Or.inl ⟨r', by simp [allInstances, hmem], rfl, le_refl _⟩
    · have : (newPageS2 now fd s).retiredInstances = s.retiredInstances :=
        newPageS1_retired now fd s
      rw [this] at hR
      exact Or.inl ⟨r', by simp [allInstances, hR], rfl, le_refl _⟩
  | retireBrowser bid =>
    intro r' h
    have h' : r' ∈ allInstances (retireBrowser bid s).1 := h
    revert h'
    unfold retireBrowser
    split
    · exact refl_case r'
    · exact refl_case r'
    · rename_i i _
      exact fun h' => Or.inl ⟨r', all_retireById_subset i.id s r' h', rfl, le_refl _⟩
  | disconnected id =>
    exact fun r' h => Or.inl ⟨r', all_retireById_subset id s r' h, rfl, le_refl _⟩
  | targetDestroyed id ty =>
    intro r' h
    have h' : r' ∈ allInstances (targetDestroyedStep id ty s) := h
    revert h'
    unfold targetDestroyedStep
    split
    · intro h'
      have hg : ∀ r : PuppeteerInstance,
          ((if r.id = id then { r with activePages := r.activePages - 1 } else r) :
            PuppeteerInstance).id = r.id ∧
          r.totalPages ≤ ((if r.id = id then { r with activePages := r.activePages - 1 }
            else r) : PuppeteerInstance).totalPages := by
        intro r
        by_cases hr : r.id = id <;> simp [hr]
      rcases List.mem_append.mp h' with hA | hR
      · obtain ⟨j, hj, hji, hjt⟩ := mono_map _ hg r' hA
        exact Or.inl ⟨j, by simp [allInstances, hj], hji, hjt⟩
      · obtain ⟨j, hj, hji, hjt⟩ := mono_map _ hg r' hR
        exact Or.inl ⟨j, by simp [allInstances, hj], hji, hjt⟩
    · exact refl_case r'
  | launchResolved id =>
    intro r' h
    have h' : r' ∈ allInstances (launchResolvedStep id s) := h
    have hg : ∀ r : PuppeteerInstance,
        ((if r.id = id then { r with recycleDiskCacheDir := r.browserDir } else r) :
          PuppeteerInstance).id = r.id ∧
        r.totalPages ≤ ((if r.id = id then { r with recycleDiskCacheDir := r.browserDir }
          else r) : PuppeteerInstance).totalPages := by
      intro r
      by_cases hr : r.id = id <;> simp [hr]
    rcases List.mem_append.mp h' with hA | hR
    · obtain ⟨j, hj, hji, hjt⟩ := mono_map _ hg r' hA
      exact Or.inl ⟨j, by simp [allInstances, hj], hji, hjt⟩
    · obtain ⟨j, hj, hji, hjt⟩ := mono_map _ hg r' hR
      exact Or.inl ⟨j, by simp [allInstances, hj], hji, hjt⟩
  | launchFailed id =>
    exact fun r' h => Or.inl ⟨r', all_retireById_subset id s r' h, rfl, le_refl _⟩
  | killRetired id =>
    exact fun r' h => Or.inl ⟨r', all_killById_subset id s r' h, rfl, le_refl _⟩
  | destroy =>
    intro r' h
    have h' : r' ∈ allInstances (destroyStep s) := h
    have hg : ∀ r : PuppeteerInstance,
        (({ r with killed := true } : PuppeteerInstance)).id = r.id ∧
        r.totalPages ≤ (({ r with killed := true } : PuppeteerInstance)).totalPages := by
      intro r; exact ⟨rfl, le_refl _⟩
    rcases List.mem_append.mp h' with hA | hR
    · obtain ⟨j, hj, hji, hjt⟩ := mono_map _ hg r' hA
      exact Or.inl ⟨j, by simp [allInstances, hj], hji, hjt⟩
    · obtain ⟨j, hj, hji, hjt⟩ := mono_map _ hg r' hR
      exact Or.inl ⟨j, by simp [allInstances, hj], hji, hjt⟩

theorem nodup_all {s : PoolState} (hinv : PoolInv s) : (idsOf (allInstances s)).Nodup := by
  obtain ⟨-, hna, hnr, hd⟩ := hinv
  rw [allInstances, idsOf_append, List.nodup_append]
  refine ⟨hna, hnr, ?_⟩
  intro n hn hn'
  obtain ⟨a, ha, hai⟩ := mem_idsOf.mp hn
  obtain ⟨r, hr, hri⟩ := mem_idsOf.mp hn'
  exact hd a ha r hr (by omega)

theorem all_unique {s : PoolState} (hinv : PoolInv s) {a b : PuppeteerInstance}
    (ha : a ∈ allInstances s) (hb : b ∈ allInstances s) (h : a.id = b.id) : a = b :=
  List.inj_on_of_nodup_map (nodup_all hinv) ha hb h

/-! ### Locating the updated target record after `newPage` -/

theorem retireById_retired_superset (id : Nat) (t : PoolState) {r : PuppeteerInstance}
    (h : r ∈ t.retiredInstances) : r ∈ (retireById id t).retiredInstances := by
  unfold retireById; split
  · exact h
  · exact List.mem_append.mpr (Or.inl h)

theorem targetId_mem_S1 (now fd : Nat) (s : PoolState) :
    (newPageTarget now fd s).id ∈ idsOf (newPageS1 now fd s).activeInstances := by
  cases hch : chooseInstance s.activeInstances s.maxOpenPagesPerInstance with
  | none =>
    rw [newPageTarget_of_none hch]
    have hact : (newPageS1 now fd s).activeInstances
        = s.activeInstances ++ [freshInstance now fd s] := by
      unfold newPageS1; rw [hch]
      rfl
    rw [hact, idsOf_append]
    simp [idsOf]
  | some c =>
    rw [newPageTarget_of_some hch]
    have hact : (newPageS1 now fd s).activeInstances = s.activeInstances := by
      unfold newPageS1; rw [hch]
    rw [hact]
    exact mem_idsOf_of_mem (chooseInstance_mem hch).1

theorem upd_mem_S2 (now fd : Nat) (s : PoolState) :
    newPageUpd now fd s ∈ (newPageS2 now fd s).activeInstances := by
  obtain ⟨j, hj, hji⟩ := mem_idsOf.mp (targetId_mem_S1 now fd s)
  have hmem : (if j.id = (newPageTarget now fd s).id then newPageUpd now fd s else j)
      ∈ (newPageS2 now fd s).activeInstances :=
    List.mem_map.mpr ⟨j, hj, rfl⟩
  rw [if_pos hji] at hmem
  exact hmem

theorem mem_S2_of_id {now fd : Nat} {s : PoolState} {i : PuppeteerInstance}
    (hi : i ∈ (newPageS2 now fd s).activeInstances)
    (hid : i.id = (newPageTarget now fd s).id) : i = newPageUpd now fd s := by
  rcases newPageS2_active_mem hi with h | ⟨-, hne⟩
  · exact h
  · exact absurd hid hne

theorem upd_mem_S3_retired_of_cap (now fd : Nat) (s : PoolState)
    (hcap : s.retireInstanceAfterRequestCount ≤ (newPageUpd now fd s).totalPages) :
    newPageUpd now fd s ∈ (newPageS3 now fd s).retiredInstances := by
  unfold newPageS3
  rw [if_pos hcap]
  unfold retireById
  cases hfind : (newPageS2 now fd s).activeInstances.find?
      (fun r => r.id = (newPageTarget now fd s).id) with
  | none =>
    exfalso
    have := List.find?_eq_none.mp hfind _ (upd_mem_S2 now fd s)
    simp [newPageUpd_id] at this
  | some rec =>
    have hrec : rec = newPageUpd now fd s :=
      mem_S2_of_id (List.mem_of_find?_eq_some hfind)
        (by simpa using List.find?_some hfind)
    rw [hrec]
    exact List.mem_append.mpr (Or.inr (List.mem_singleton_self _))

theorem upd_mem_newPage_retired_of_cap (now fd : Nat) (fails : Bool) (s : PoolState)
    (hcap : s.retireInstanceAfterRequestCount ≤ (newPageUpd now fd s).totalPages) :
    newPageUpd now fd s ∈ (newPage now fd fails s).1.retiredInstances := by
  have h3 := upd_mem_S3_retired_of_cap now fd s hcap
  show newPageUpd now fd s ∈ (newPage now fd fails s).1.retiredInstances
  unfold newPage
  split
  · exact retireById_retired_superset _ _ h3
  · exact h3

theorem upd_mem_retired_after_retire (now fd : Nat) (s : PoolState)
    (hcap : ¬ s.retireInstanceAfterRequestCount ≤ (newPageUpd now fd s).totalPages) :
    newPageUpd now fd s ∈
      (retireById (newPageTarget now fd s).id (newPageS3 now fd s)).retiredInstances := by
  unfold newPageS3
  rw [if_neg hcap]
  unfold retireById
  cases hfind : (newPageS2 now fd s).activeInstances.find?
      (fun r => r.id = (newPageTarget now fd s).id) with
  | none =>
    exfalso
    have := List.find?_eq_none.mp hfind _ (upd_mem_S2 now fd s)
    simp [newPageUpd_id] at this
  | some rec =>
    have hrec : rec = newPageUpd now fd s :=
      mem_S2_of_id (List.mem_of_find?_eq_some hfind)
        (by simpa using List.find?_some hfind)
    rw [hrec]
    exact List.mem_append.mpr (Or.inr (List.mem_singleton_self _))

/-! ### Counter behaviour of `newPage` -/

theorem newPageS1_counter (now fd : Nat) (s : PoolState) :
    (newPageS1 now fd s).browserCounter =
      if chooseInstance s.activeInstances s.maxOpenPagesPerInstance = none
      then s.browserCounter + 1 else s.browserCounter := by
  unfold newPageS1
  split
  · rename_i c hch
    rw [hch]
    simp
  · rename_i hch
    rw [hch]
    simp [launchInstance]

theorem newPage_counter (now fd : Nat) (fails : Bool) (s : PoolState) :
    (newPage now fd fails s).1.browserCounter = (newPageS1 now fd s).browserCounter := by
  have h3 : (newPageS3 now fd s).browserCounter = (newPageS1 now fd s).browserCounter := by
    unfold newPageS3
    split
    · rw [retireById_counter]
      rfl
    · rfl
  show (newPage now fd fails s).1.browserCounter = _
  unfold newPage
  split
  · rw [retireById_counter]
    exact h3
  · exact h3

/-! ### Claim theorems -/

/-- Claim C3: after every sequence of pool operations and event deliveries
(newPage, retire, destroy, launch completion or failure, disconnected,
targetdestroyed, reaper ticks, kills), the id sets of the active map and
the retired map are disjoint: no instance id is present in both at once. -/
theorem active_retired_disjoint (cfg : PoolConfig) (s : PoolState)
    (h : Reachable cfg s) :
    ∀ a ∈ s.activeInstances, ∀ r ∈ s.retiredInstances, a.id ≠ r.id :=
  (inv_reachable h).2.2.2

theorem active_retired_disjoint_witness :
    ({ id := 1, browserId := 1, activePages := 1, totalPages := 1, lastPageOpenedAt := 6,
       killed := false, recycleDiskCacheDir := none, browserDir := none } :
      PuppeteerInstance).id ≠
    ({ id := 0, browserId := 0, activePages := 1, totalPages := 1, lastPageOpenedAt := 5,
       killed := false, recycleDiskCacheDir := none, browserDir := none } :
      PuppeteerInstance).id :=
  active_retired_disjoint cfg0 _
    (Reachable.step (poolStep (poolStep (poolInit cfg0) (.newPage 5 0 false))
        (.disconnected 0)) (.newPage 6 0 false)
      (Reachable.step (poolStep (poolInit cfg0) (.newPage 5 0 false)) (.disconnected 0)
        (Reachable.step (poolInit cfg0) (.newPage 5 0 false) Reachable.init)))
    _ (by decide) _ (by decide)

/-- Claim C4: in every reachable state, every instance of the active map
has `totalPages` strictly below `retireInstanceAfterRequestCount`;
moreover, whenever the increment performed by `newPage` makes the target
record reach or exceed the cap, that updated record sits in the retired
map of the post-step state (the retirement happens in the same synchronous
step, whether or not the later page creation fails). -/
theorem active_totalPages_lt_cap (cfg : PoolConfig) (s : PoolState)
    (h : Reachable cfg s) :
    (∀ i ∈ s.activeInstances, i.totalPages < s.retireInstanceAfterRequestCount) ∧
    ∀ now fd fails, s.retireInstanceAfterRequestCount ≤ (newPageUpd now fd s).totalPages →
      newPageUpd now fd s ∈ (poolStep s (.newPage now fd fails)).retiredInstances :=
  ⟨capInv_reachable h,
    fun now fd fails hcap => upd_mem_newPage_retired_of_cap now fd fails s hcap⟩

theorem active_totalPages_lt_cap_witness :
    ({ id := 0, browserId := 0, activePages := 1, totalPages := 1, lastPageOpenedAt := 5,
       killed := false, recycleDiskCacheDir := none, browserDir := none } :
      PuppeteerInstance).totalPages <
      (poolStep (poolInit cfg0) (.newPage 5 0 false)).retireInstanceAfterRequestCount :=
  (active_totalPages_lt_cap cfg0 _ (Reachable.step (poolInit cfg0)
      (.newPage 5 0 false) Reachable.init)).1 _ (by decide)

/-- Claim C5: a call to `newPage` launches a new instance (allocating the
next id) exactly when every instance of the active map has
`activePages ≥ maxOpenPagesPerInstance`; otherwise it uses an active
instance whose `activePages` is strictly below the cap. -/
theorem newPage_launch_iff_saturated (s : PoolState) (now fd : Nat) (fails : Bool) :
    ((newPage now fd fails s).1.browserCounter = s.browserCounter + 1 ↔
      ∀ i ∈ s.activeInstances, s.maxOpenPagesPerInstance ≤ i.activePages) ∧
    (¬ (∀ i ∈ s.activeInstances, s.maxOpenPagesPerInstance ≤ i.activePages) →
      newPageTarget now fd s ∈ s.activeInstances ∧
      (newPageTarget now fd s).activePages < s.maxOpenPagesPerInstance) := by
  constructor
  · rw [newPage_counter, newPageS1_counter]
    by_cases hch : chooseInstance s.activeInstances s.maxOpenPagesPerInstance = none
    · rw [if_pos hch]
      exact ⟨fun _ => chooseInstance_eq_none_iff.mp hch, fun _ => rfl⟩
    · rw [if_neg hch]
      constructor
      · intro habs
        exact absurd habs (by omega)
      · intro hsat
        exact absurd (chooseInstance_eq_none_iff.mpr hsat) hch
  · intro hnsat
    cases hch : chooseInstance s.activeInstances s.maxOpenPagesPerInstance with
    | none => exact absurd (chooseInstance_eq_none_iff.mp hch) hnsat
    | some c =>
      rw [newPageTarget_of_some hch]
      exact chooseInstance_mem hch

theorem newPage_launch_iff_saturated_witness :
    newPageTarget 6 0 (poolStep (poolInit cfg0) (.newPage 5 0 false)) ∈
      (poolStep (poolInit cfg0) (.newPage 5 0 false)).activeInstances ∧
    (newPageTarget 6 0 (poolStep (poolInit cfg0) (.newPage 5 0 false))).activePages <
      (poolStep (poolInit cfg0) (.newPage 5 0 false)).maxOpenPagesPerInstance :=
  (newPage_launch_iff_saturated _ 6 0 false).2 (by decide)

/-- Claim C6 counterexample: the claim says delivering `targetdestroyed`
events of type page or other never drives `activePages` below zero, but
the handler decrements unconditionally: after one `newPage` and two such
deliveries (for example, the page plus the initial blank tab of the
browser), the single active record holds `activePages = -1` in a reachable
state. -/
theorem activePages_negative_cex :
    Reachable cfg0 (poolStep (poolStep (poolStep (poolInit cfg0) (.newPage 5 0 false))
        (.targetDestroyed 0 .page)) (.targetDestroyed 0 .page)) ∧
    ((poolStep (poolStep (poolStep (poolInit cfg0) (.newPage 5 0 false))
        (.targetDestroyed 0 .page)) (.targetDestroyed 0 .page)).activeInstances.map
      (·.activePages)) = [-1] :=
  ⟨Reachable.step _ _ (Reachable.step _ _ (Reachable.step _ _ Reachable.init)), by decide⟩

/-- Claim C6 (amended): across every single operation or event delivery on
a reachable state, the `totalPages` counter of a record never decreases
(the record after the step, matched by id, has at least the old count);
`activePages`, however, can drop below zero, because the `targetdestroyed`
handler decrements it unconditionally. -/
theorem totalPages_monotone (cfg : PoolConfig) (s : PoolState) (h : Reachable cfg s)
    (op : Op) (rec rec' : PuppeteerInstance)
    (hrec : rec ∈ allInstances s) (hrec' : rec' ∈ allInstances (poolStep s op))
    (hid : rec'.id = rec.id) : rec.totalPages ≤ rec'.totalPages := by
  rcases mono_source op rec' hrec' with ⟨r, hr, hri, hrt⟩ | hcnt
  · have hreq : r = rec := all_unique (inv_reachable h) hr hrec (by omega)
    rw [← hreq]
    exact hrt
  · have := (inv_reachable h).1 rec hrec
    omega

theorem totalPages_monotone_witness :
    ({ id := 0, browserId := 0, activePages := 1, totalPages := 1, lastPageOpenedAt := 5,
       killed := false, recycleDiskCacheDir := none, browserDir := none } :
      PuppeteerInstance).totalPages ≤
    ({ id := 0, browserId := 0, activePages := 2, totalPages := 2, lastPageOpenedAt := 6,
       killed := false, recycleDiskCacheDir := none, browserDir := none } :
      PuppeteerInstance).totalPages :=
  totalPages_monotone cfg0 (poolStep (poolInit cfg0) (.newPage 5 0 false))
    (Reachable.step (poolInit cfg0) (.newPage 5 0 false) Reachable.init)
    (.newPage 6 0 false) _ _ (by decide) (by decide) (by decide)

/-- Claim C1 counterexample: the source keeps no destroyed flag, so after
`destroy` on an empty pool a `newPage` call launches a new instance (the
counter advances, a record is created) and returns a page successfully:
allocation is not prevented. -/
theorem destroy_then_newPage_cex :
    (newPage 0 0 false (poolStep (poolInit cfg0) .destroy)).2 = .ok 0 ∧
    (newPage 0 0 false (poolStep (poolInit cfg0) .destroy)).1.browserCounter = 1 ∧
    (newPage 0 0 false (poolStep (poolInit cfg0) .destroy)).1.activeInstances ≠ [] :=
  ⟨rfl, rfl, by decide⟩

/-- Claim C1 (amended): `destroy` closes the browsers and marks every
record killed but does not block page allocation: the instance maps stay
in place and no destroyed flag exists, so a subsequent `newPage` proceeds
as before - in particular, on a pool whose active map is empty it launches
a new instance (a fresh record with the next id is created and the launch
function is invoked) and, when page creation succeeds, returns a page. -/
theorem destroy_not_block_newPage (s : PoolState) (now fd : Nat)
    (h : s.activeInstances = []) :
    (newPage now fd false (destroyStep s)).2 = .ok s.browserCounter ∧
    (newPage now fd false (destroyStep s)).1.browserCounter = s.browserCounter + 1 ∧
    ∃ rec ∈ allInstances (newPage now fd false (destroyStep s)).1,
      rec.id = s.browserCounter := by
  have hA : (destroyStep s).activeInstances = [] := by
    simp [destroyStep, h]
  have hch : chooseInstance (destroyStep s).activeInstances
      (destroyStep s).maxOpenPagesPerInstance = none := by
    rw [hA]; rfl
  have htgt : newPageTarget now fd (destroyStep s) = freshInstance now fd (destroyStep s) :=
    newPageTarget_of_none hch
  have hid : (newPageTarget now fd (destroyStep s)).id = s.browserCounter := by
    rw [htgt]; rfl
  refine ⟨?_, ?_, ?_⟩
  · show Except.ok (newPageTarget now fd (destroyStep s)).id = Except.ok s.browserCounter
    rw [hid]
  · rw [newPage_counter, newPageS1_counter, if_pos hch]
    rfl
  · refine ⟨newPageUpd now fd (destroyStep s), ?_, ?_⟩
    · by_cases hcap : (destroyStep s).retireInstanceAfterRequestCount ≤
          (newPageUpd now fd (destroyStep s)).totalPages
      · show newPageUpd now fd (destroyStep s) ∈
          allInstances (newPageS3 now fd (destroyStep s))
        exact List.mem_append.mpr (Or.inr (upd_mem_S3_retired_of_cap now fd _ hcap))
      · show newPageUpd now fd (destroyStep s) ∈
          allInstances (newPageS3 now fd (destroyStep s))
        unfold newPageS3
        rw [if_neg hcap]
        exact List.mem_append.mpr (Or.inl (upd_mem_S2 now fd (destroyStep s)))
    · rw [newPageUpd_id, hid]

theorem destroy_not_block_newPage_witness :
    (newPage 3 0 false (destroyStep (poolInit cfg0))).2 = .ok 0 :=
  (destroy_not_block_newPage (poolInit cfg0) 3 0 rfl).1

/-- Claim C9: when a retire call located an instance through its browser
handle and retired it, a second retire with the same handle finds nothing
in the active map, leaves the pool state unchanged, and completes
successfully: the second call is a no-op. -/
theorem retire_twice_noop (s : PoolState) (bid : Nat) (i : PuppeteerInstance)
    (h : findInstanceByBrowser bid s = .ok (some i)) :
    retireBrowser bid (retireBrowser bid s).1 = ((retireBrowser bid s).1, .ok ()) := by
  have hfil : s.activeInstances.filter (fun r => r.browserId = bid) = [i] := by
    unfold findInstanceByBrowser at h
    split at h
    · simp at h
    · rename_i x heq
      obtain rfl : x = i := by simpa using h
      exact heq
    · simp at h
  have himem : i ∈ s.activeInstances ∧ i.browserId = bid := by
    have hmem : i ∈ s.activeInstances.filter (fun r => r.browserId = bid) := by
      rw [hfil]; exact List.mem_singleton_self i
    have h2 := List.mem_filter.mp hmem
    exact ⟨h2.1, by simpa using h2.2⟩
  have hfirst : (retireBrowser bid s).1 = retireById i.id s := by
    unfold retireBrowser
    rw [h]
  have hfil2 : (retireById i.id s).activeInstances.filter
      (fun r => r.browserId = bid) = [] := by
    unfold retireById
    cases hfind : s.activeInstances.find? (fun r => r.id = i.id) with
    | none =>
      exfalso
      have := List.find?_eq_none.mp hfind i himem.1
      simp at this
    | some rec =>
      rw [List.filter_eq_nil_iff]
      intro x hx hxb
      obtain ⟨hxa, hxne⟩ := mem_removeById.mp hx
      have hxmem : x ∈ s.activeInstances.filter (fun r => r.browserId = bid) :=
        List.mem_filter.mpr ⟨hxa, hxb⟩
      rw [hfil, List.mem_singleton] at hxmem
      subst hxmem
      exact hxne rfl
  rw [hfirst]
  have hfind2 : findInstanceByBrowser bid (retireById i.id s) = .ok none := by
    unfold findInstanceByBrowser
    rw [hfil2]
  unfold retireBrowser
  rw [hfind2]

theorem retire_twice_noop_witness :
    retireBrowser 0 (retireBrowser 0 (poolStep (poolInit cfg0) (.newPage 5 0 false))).1 =
      ((retireBrowser 0 (poolStep (poolInit cfg0) (.newPage 5 0 false))).1, .ok ()) :=
  retire_twice_noop (poolStep (poolInit cfg0) (.newPage 5 0 false)) 0
    { id := 0, browserId := 0, activePages := 1, totalPages := 1, lastPageOpenedAt := 5,
      killed := false, recycleDiskCacheDir := none, browserDir := none } rfl

/-- Claim C10: when page creation fails inside `newPage`, the error is
rethrown to the caller and the counters are not rolled back: the record
(retired by the failure handler) keeps the pre-await increments of
`activePages` and `totalPages` and the fresh `lastPageOpenedAt`; only a
later `targetdestroyed` delivery decrements `activePages` again. -/
theorem newPage_failure_keeps_counters (s : PoolState) (now fd : Nat) :
    (newPage now fd true s).2 = .error () ∧
    ∃ rec ∈ (newPage now fd true s).1.retiredInstances,
      rec.id = (newPageTarget now fd s).id ∧
      rec.activePages = (newPageTarget now fd s).activePages + 1 ∧
      rec.totalPages = (newPageTarget now fd s).totalPages + 1 ∧
      rec.lastPageOpenedAt = now := by
  refine ⟨rfl, newPageUpd now fd s, ?_, rfl, rfl, rfl, rfl⟩
  by_cases hcap : s.retireInstanceAfterRequestCount ≤ (newPageUpd now fd s).totalPages
  · exact upd_mem_newPage_retired_of_cap now fd true s hcap
  · show newPageUpd now fd s ∈
      (retireById (newPageTarget now fd s).id (newPageS3 now fd s)).retiredInstances
    exact upd_mem_retired_after_retire now fd s hcap

/-- Claim C2 counterexample: `recycleDiskCache = true` with no launch
options meets the headless warning condition (the warning fires), yet the
launch function still dequeues the recycled-cache-dir FIFO head and
appends the `--disk-cache-dir` argument: recycling is not disabled. -/
theorem recycle_headless_cex :
    warnsRecycleHeadless true none = true ∧
    launchPuppeteerFnModel true none [7] 3 = ([.diskCacheDir 7], some 7, []) :=
  ⟨rfl, rfl⟩

/-- Claim C2 (amended): when `recycleDiskCache` is set and the launch
options indicate headless mode (or leave headless unset without enabling
devtools), the constructor emits the warning - but recycling is not
disabled for the session: every launch with `recycleDiskCache` set appends
a `--disk-cache-dir` argument, dequeuing the FIFO head when the FIFO is
nonempty and using a fresh temp directory otherwise. -/
theorem recycle_warn_only (opts : Option LaunchOptions) (fifo : List Nat) (freshDir : Nat) :
    (warnsRecycleHeadless true opts =
      opts.elim true (fun o => o.headless = some true || (o.headless = none && !o.devtools))) ∧
    (∀ d rest, fifo = d :: rest →
      launchPuppeteerFnModel true opts fifo freshDir =
        ((opts.map (·.args)).getD [] ++ [.diskCacheDir d], some d, rest)) ∧
    (fifo = [] →
      launchPuppeteerFnModel true opts fifo freshDir =
        ((opts.map (·.args)).getD [] ++ [.diskCacheDir freshDir], some freshDir, [])) := by
  refine ⟨?_, ?_, ?_⟩
  · cases opts with
    | none => rfl
    | some o => simp [warnsRecycleHeadless]
  · intro d rest hf
    subst hf
    rfl
  · intro hf
    subst hf
    rfl

theorem recycle_warn_only_witness :
    launchPuppeteerFnModel true none [7] 9 = ([.diskCacheDir 7], some 7, []) :=
  (recycle_warn_only none [7] 9).2.1 7 [] rfl

/-- Claim C7 counterexample: for an instance whose browser promise is
already resolved (time 0), whose close takes 5 time units and which owns
cache directory 4, the deletion of that directory starts at time 0 and the
FIFO drain also runs at time 0, both strictly before the close settles at
time 5: `destroy` does not wait for closes to settle before deleting. -/
theorem destroy_delete_before_close_cex :
    dirDeleteStartAt ⟨0, 5, 0, some 4⟩ = some 0 ∧
    closeSettledAt ⟨0, 5, 0, some 4⟩ = 5 ∧
    drainStartAt [⟨0, 5, 0, some 4⟩] = 0 ∧ (0 : Nat) < 5 :=
  ⟨rfl, rfl, rfl, by decide⟩

theorem foldl_max_init_le (l : List Nat) (b : Nat) : b ≤ l.foldl max b := by
  induction l generalizing b with
  | nil => exact le_refl _
  | cons x t ih => exact le_trans (le_max_left _ _) (ih _)

theorem le_foldl_max_of_mem (l : List Nat) (a b : Nat) (h : a ∈ l) :
    a ≤ l.foldl max b := by
  induction l generalizing b with
  | nil => cases h
  | cons x t ih =>
    rcases List.mem_cons.mp h with rfl | h'
    · exact le_trans (le_max_right _ _) (foldl_max_init_le t _)
    · exact ih _ h'

/-- Claim C7 (amended): in `destroy`, each instance cache-directory
deletion starts no earlier than that instance close *initiation* (the
browser promise has resolved and `browser.close()` has been called), and
the FIFO drain starts only after every per-instance chain has completed;
but the close promise is discarded, so deletion does not wait for any
close to *settle*. -/
theorem destroy_delete_after_close_initiated (ts : List DestroyTiming)
    (t : DestroyTiming) (ht : t ∈ ts) :
    (∀ d, dirDeleteStartAt t = some d → closeInitiatedAt t ≤ d) ∧
    chainDoneAt t ≤ drainStartAt ts := by
  constructor
  · intro d hd
    unfold dirDeleteStartAt at hd
    cases hdir : t.dir with
    | none => rw [hdir] at hd; cases hd
    | some x =>
      rw [hdir] at hd
      obtain rfl : t.browserResolveAt = d := by simpa using hd
      exact le_refl _
  · exact le_foldl_max_of_mem _ _ _ (List.mem_map_of_mem chainDoneAt ht)

theorem destroy_delete_after_close_initiated_witness :
    chainDoneAt ⟨2, 5, 1, some 4⟩ ≤ drainStartAt [⟨2, 5, 1, some 4⟩] :=
  (destroy_delete_after_close_initiated [⟨2, 5, 1, some 4⟩] _
    (List.mem_singleton_self _)).2

/-- Claim C8: the completion returned by `destroy` always succeeds,
whatever combination of browser-launch failures, close failures (whose
promise is discarded anyway) and directory-deletion failures occurs - the
final catch converts every rejection into success; and the catch is
load-bearing: without it the chain can reject. -/
theorem destroy_always_succeeds :
    (∀ (chains : List DestroyChainInput) (fifoDeleteFails : List Bool),
      destroyResult chains fifoDeleteFails = .ok ()) ∧
    (∃ chains fifoDeleteFails, destroyBody chains fifoDeleteFails = .error ()) := by
  constructor
  · intro chains ff
    unfold destroyResult pcatch
    cases h : destroyBody chains ff with
    | ok a => cases a; rfl
    | error e => rfl
  · exact ⟨[⟨true, false, none, false⟩], [], rfl⟩
